import Mathlib

/-!
# Verification of the process-invocation and background-job core

Shallow embedding of the external-process invocation subsystem of the
repository (src/mcp/codex-core.ts and src/mcp/gemini-core.ts): the JSONL
output decoder, the synchronous process executor's event handlers, the
background job supervisor's status state machine, the model fallback chain
driver and the request handlers.  Platform primitives (JavaScript string
trimming, `parseInt`, `JSON.parse`) are embedded by their specified
semantics; the event-driven process supervision is embedded as a step
function over an explicit event list, mirroring the single-threaded
JavaScript event loop.
-/

namespace OMC

/-! ## JavaScript string primitives -/

/-- The JavaScript whitespace set used by `String.prototype.trim` (WhiteSpace
and LineTerminator code points; ASCII part plus the common Unicode members). -/
def jsIsWhitespace (c : Char) : Bool :=
  c = ' ' || c = '\t' || c = '\n' || c = '\r' ||
  c.val = 0x0b || c.val = 0x0c || c.val = 0xa0 || c.val = 0xfeff ||
  c.val = 0x2028 || c.val = 0x2029 || c.val = 0x1680 ||
  (c.val ≥ 0x2000 && c.val ≤ 0x200a) ||
  c.val = 0x202f || c.val = 0x205f || c.val = 0x3000

/-- Embedding of JavaScript `String.prototype.trim`. -/
def jsTrim (s : String) : String :=
  ⟨((s.data.dropWhile jsIsWhitespace).reverse.dropWhile jsIsWhitespace).reverse⟩

/-- Embedding of JavaScript `String.prototype.split('\n')`. -/
def jsSplitLines (s : String) : List String :=
  (s.data.splitOn '\n').map (fun cs => ⟨cs⟩)

/-! ## JSON values and `JSON.parse`

`parseCodexOutput` calls `JSON.parse` on each line.  We embed `JSON.parse`
as a recursive-descent parser for the JSON grammar over the character list,
with fuel for termination.  Number tokens are kept as their lexeme: the
decoder only ever tests values for truthiness and string-ness, and
stringifies the rare non-string text value, so the double value itself is
never needed beyond whether it is zero. -/

inductive JsValue where
  | null
  | bool (b : Bool)
  | num (lexeme : String)
  | str (s : String)
  | arr (elems : List JsValue)
  | obj (fields : List (String × JsValue))
deriving Repr, BEq, Inhabited

/-- JSON structural whitespace (`ws` in the JSON grammar). -/
def jsonWs (c : Char) : Bool :=
  c = ' ' || c = '\t' || c = '\n' || c = '\r'

def hexDigitVal (c : Char) : Option Nat :=
  if '0' ≤ c ∧ c ≤ '9' then some (c.toNat - '0'.toNat)
  else if 'a' ≤ c ∧ c ≤ 'f' then some (c.toNat - 'a'.toNat + 10)
  else if 'A' ≤ c ∧ c ≤ 'F' then some (c.toNat - 'A'.toNat + 10)
  else none

/-- Parse a JSON string body after the opening quote; returns the string and
the rest of the input.  `\uXXXX` escapes that name an invalid Unicode scalar
(lone surrogates) are embedded as U+FFFD.  Fuel bounds the recursion. -/
def parseJsonString (fuel : Nat) (cs : List Char) : Option (String × List Char) :=
  match fuel with
  | 0 => none
  | fuel + 1 =>
    match cs with
    | [] => none
    | '"' :: rest => some ("", rest)
    | '\\' :: rest =>
      match rest with
      | [] => none
      | e :: rest2 =>
        let decoded : Option (Char × List Char) :=
          if e = '"' then some ('"', rest2)
          else if e = '\\' then some ('\\', rest2)
          else if e = '/' then some ('/', rest2)
          else if e = 'b' then some ('\x08', rest2)
          else if e = 'f' then some ('\x0c', rest2)
          else if e = 'n' then some ('\n', rest2)
          else if e = 'r' then some ('\r', rest2)
          else if e = 't' then some ('\t', rest2)
          else if e = 'u' then
            match rest2 with
            | h1 :: h2 :: h3 :: h4 :: rest3 =>
              match hexDigitVal h1, hexDigitVal h2, hexDigitVal h3, hexDigitVal h4 with
              | some v1, some v2, some v3, some v4 =>
                let n := ((v1 * 16 + v2) * 16 + v3) * 16 + v4
                some (if Nat.isValidChar n then Char.ofNat n else '�', rest3)
              | _, _, _, _ => none
            | _ => none
          else none
        match decoded with
        | none => none
        | some (c, rest3) =>
          match parseJsonString fuel rest3 with
          | some (s, rest4) => some (⟨c :: s.data⟩, rest4)
          | none => none
    | c :: rest =>
      if c.toNat < 0x20 then none
      else
        match parseJsonString fuel rest with
        | some (s, rest2) => some (⟨c :: s.data⟩, rest2)
        | none => none

/-- Parse a JSON number lexeme (grammar: `-? int frac? exp?`). -/
def parseJsonNumber (cs : List Char) : Option (String × List Char) :=
  let (sign, cs1) :=
    match cs with
    | '-' :: rest => (['-'], rest)
    | _ => (([] : List Char), cs)
  let intPart := cs1.takeWhile (fun c => '0' ≤ c ∧ c ≤ '9')
  if intPart.isEmpty then none
  else if intPart.length > 1 ∧ intPart.headD '0' = '0' then none
  else
    let cs2 := cs1.drop intPart.length
    let (fracPart, cs3) :=
      match cs2 with
      | '.' :: rest =>
        let ds := rest.takeWhile (fun c => '0' ≤ c ∧ c ≤ '9')
        if ds.isEmpty then (([] : List Char), cs2)
        else ('.' :: ds, rest.drop ds.length)
      | _ => (([] : List Char), cs2)
    if (match cs2 with | '.' :: rest => (rest.takeWhile (fun c => '0' ≤ c ∧ c ≤ '9')).isEmpty | _ => false) then none
    else
      let expRes : Option (List Char × List Char) :=
        match cs3 with
        | e :: rest =>
          if e = 'e' ∨ e = 'E' then
            let (es, rest2) :=
              match rest with
              | s :: r2 => if s = '+' ∨ s = '-' then ([e, s], r2) else ([e], rest)
              | [] => ([e], rest)
            let ds := rest2.takeWhile (fun c => '0' ≤ c ∧ c ≤ '9')
            if ds.isEmpty then none else some (es ++ ds, rest2.drop ds.length)
          else some ([], cs3)
        | [] => some ([], cs3)
      match expRes with
      | none => none
      | some (expPart, rest) =>
        some (⟨sign ++ intPart ++ fracPart ++ expPart⟩, rest)

mutual
/-- Parse one JSON value (leading structural whitespace already skipped). -/
def parseJsonValue (fuel : Nat) (cs : List Char) : Option (JsValue × List Char) :=
  match fuel with
  | 0 => none
  | fuel + 1 =>
    match cs with
    | [] => none
    | c :: rest =>
      if c = '"' then
        match parseJsonString (rest.length + 1) rest with
        | some (s, rest2) => some (.str s, rest2)
        | none => none
      else if c = '{' then
        parseJsonObject fuel (rest.dropWhile jsonWs) true
      else if c = '[' then
        parseJsonArray fuel (rest.dropWhile jsonWs) true
      else if c = 't' then
        match cs with
        | 't' :: 'r' :: 'u' :: 'e' :: rest2 => some (.bool true, rest2)
        | _ => none
      else if c = 'f' then
        match cs with
        | 'f' :: 'a' :: 'l' :: 's' :: 'e' :: rest2 => some (.bool false, rest2)
        | _ => none
      else if c = 'n' then
        match cs with
        | 'n' :: 'u' :: 'l' :: 'l' :: rest2 => some (.null, rest2)
        | _ => none
      else
        match parseJsonNumber cs with
        | some (lex, rest2) => some (.num lex, rest2)
        | none => none

/-- Parse the inside of a JSON object after `{` (whitespace skipped);
`first` is true when no member has been consumed yet. -/
def parseJsonObject (fuel : Nat) (cs : List Char) (first : Bool) :
    Option (JsValue × List Char) :=
  match fuel with
  | 0 => none
  | fuel + 1 =>
    match cs with
    | '}' :: rest => if first then some (.obj [], rest) else none
    | '"' :: rest =>
      match parseJsonString (rest.length + 1) rest with
      | none => none
      | some (key, rest2) =>
        match rest2.dropWhile jsonWs with
        | ':' :: rest3 =>
          match parseJsonValue fuel (rest3.dropWhile jsonWs) with
          | none => none
          | some (v, rest4) =>
            match rest4.dropWhile jsonWs with
            | ',' :: rest5 =>
              match parseJsonObject fuel (rest5.dropWhile jsonWs) false with
              | some (.obj fields, rest6) => some (.obj ((key, v) :: fields), rest6)
              | _ => none
            | '}' :: rest5 => some (.obj [(key, v)], rest5)
            | _ => none
        | _ => none
    | _ => none

/-- Parse the inside of a JSON array after `[` (whitespace skipped). -/
def parseJsonArray (fuel : Nat) (cs : List Char) (first : Bool) :
    Option (JsValue × List Char) :=
  match fuel with
  | 0 => none
  | fuel + 1 =>
    match cs with
    | ']' :: rest => if first then some (.arr [], rest) else none
    | _ =>
      match parseJsonValue fuel cs with
      | none => none
      | some (v, rest) =>
        match rest.dropWhile jsonWs with
        | ',' :: rest2 =>
          match parseJsonArray fuel (rest2.dropWhile jsonWs) false with
          | some (.arr elems, rest3) => some (.arr (v :: elems), rest3)
          | _ => none
        | ']' :: rest2 => some (.arr [v], rest2)
        | _ => none
end

/-- Embedding of `JSON.parse`: structural whitespace around a single value,
nothing else; failure (an exception in JavaScript) is `none`. -/
def jsonParse (s : String) : Option JsValue :=
  let cs := s.data.dropWhile jsonWs
  match parseJsonValue (cs.length + 1) cs with
  | some (v, rest) => if (rest.dropWhile jsonWs).isEmpty then some v else none
  | none => none

/-- JavaScript property access on a decoded JSON value (`event.type`,
`event.content`, ...): `none` is `undefined`.  `JSON.parse` keeps the last
of duplicate keys, hence the reverse lookup. -/
def getProp (v : JsValue) (key : String) : Option JsValue :=
  match v with
  | .obj fields => (fields.reverse.find? (fun kv => kv.1 = key)).map Prod.snd
  | _ => none

/-- A JSON number lexeme denotes (double) zero iff every digit of its
mantissa is `0` (approximation: extreme exponents that underflow to zero in
double precision are treated as non-zero). -/
def jsNumIsZero (lex : String) : Bool :=
  ((lex.data.takeWhile (fun c => c ≠ 'e' ∧ c ≠ 'E')).filter
    (fun c => '1' ≤ c ∧ c ≤ '9')).isEmpty

/-- JavaScript truthiness of a possibly-undefined decoded JSON value. -/
def jsTruthy : Option JsValue → Bool
  | none => false
  | some .null => false
  | some (.bool b) => b
  | some (.num lex) => !(jsNumIsZero lex)
  | some (.str s) => s ≠ ""
  | some (.arr _) => true
  | some (.obj _) => true

mutual
/-- JavaScript `ToString` of a decoded JSON value, as applied by
`Array.prototype.join` to the collected message values (number formatting
approximated by the JSON lexeme).  Fuel bounds the recursion depth; any
fuel at least the character length of the JSON text the value was parsed
from is sufficient, since each recursion layer consumes source characters. -/
def jsDisplayF (fuel : Nat) (v : JsValue) : String :=
  match fuel with
  | 0 => ""
  | fuel + 1 =>
    match v with
    | .null => "null"
    | .bool true => "true"
    | .bool false => "false"
    | .num lex => lex
    | .str s => s
    | .arr xs => jsDisplayElemsF fuel xs
    | .obj _ => "[object Object]"

/-- `Array.prototype.toString`, i.e. `join(',')` with `null` rendered empty. -/
def jsDisplayElemsF (fuel : Nat) (xs : List JsValue) : String :=
  match fuel with
  | 0 => ""
  | fuel + 1 =>
    match xs with
    | [] => ""
    | [.null] => ""
    | [x] => jsDisplayF fuel x
    | .null :: rest => "," ++ jsDisplayElemsF fuel rest
    | x :: rest => jsDisplayF fuel x ++ "," ++ jsDisplayElemsF fuel rest
end

/-! ## The output decoder (`parseCodexOutput`, codex-core.ts lines 33-62) -/

/-- The text segments one decoded JSONL event contributes to `messages`:
a `message` event with truthy `content` contributes the content string, or
the truthy `text` of each `text`-tagged part of a content array; an
`output_text` event with truthy `text` contributes that text.  (The source
runs both `if` blocks on every event, in this order.) -/
def codexLineSegments (strFuel : Nat) (v : JsValue) : List String :=
  let typeIs (w : JsValue) (tag : String) : Bool :=
    match getProp w "type" with
    | some (.str s) => s = tag
    | _ => false
  let fromMessage :=
    if typeIs v "message" ∧ jsTruthy (getProp v "content") then
      match getProp v "content" with
      | some (.str s) => [s]
      | some (.arr parts) =>
        parts.filterMap (fun part =>
          if typeIs part "text" ∧ jsTruthy (getProp part "text") then
            some (jsDisplayF strFuel ((getProp part "text").getD .null))
          else none)
      | _ => []
    else []
  let fromOutputText :=
    if typeIs v "output_text" ∧ jsTruthy (getProp v "text") then
      [jsDisplayF strFuel ((getProp v "text").getD .null)]
    else []
  fromMessage ++ fromOutputText

/-- Embedding of `parseCodexOutput`: trim, split into lines, drop blank
lines, collect text segments from each line that parses as JSON, join with
newline, and fall back to the raw output when the join is falsy (empty). -/
def parseCodexOutput (output : String) : String :=
  let lines := (jsSplitLines (jsTrim output)).filter (fun l => jsTrim l ≠ "")
  let messages := (lines.map (fun line =>
    match jsonParse line with
    | some event => codexLineSegments (line.length + 1) event
    | none => [])).flatten
  let joined := String.intercalate "\n" messages
  if joined = "" then output else joined

/-- The list of text segments `parseCodexOutput` collects into `messages`
for a given raw output (the spec's "collected segments"). -/
def collectedSegments (output : String) : List String :=
  (((jsSplitLines (jsTrim output)).filter (fun l => jsTrim l ≠ "")).map
    (fun line => ((jsonParse line).map (codexLineSegments (line.length + 1))).getD [])).flatten

/-! ## Configuration constants (codex-core.ts lines 20-28, gemini-core.ts lines 24-40) -/

/-- Embedding of JavaScript `parseInt(s, 10)`: skip leading whitespace, an
optional sign, then the longest prefix of decimal digits; `none` is `NaN`.
(Precision loss of doubles above 2^53 is not modelled; the clamp below is
monotone, so it cannot change the clamped result.) -/
def jsParseInt (s : String) : Option Int :=
  let cs := s.data.dropWhile jsIsWhitespace
  let signed : Int × List Char :=
    match cs with
    | '+' :: rest => (1, rest)
    | '-' :: rest => (-1, rest)
    | _ => (1, cs)
  let ds := signed.2.takeWhile (fun c => '0' ≤ c ∧ c ≤ '9')
  if ds.isEmpty then none
  else some (signed.1 * (ds.foldl (fun acc c => acc * 10 + (c.toNat - '0'.toNat)) 0 : Nat))

/-- The effective timeout computed from the timeout environment variable
(`CODEX_TIMEOUT` / `GEMINI_TIMEOUT`):
`Math.min(Math.max(5000, parseInt(env || '3600000', 10) || 3600000), 3600000)`.
`envVal = none` is an unset variable; an empty string and a `NaN`/zero parse
are falsy and fall back exactly as in the source. -/
def effectiveTimeout (envVal : Option String) : Int :=
  let raw : String :=
    match envVal with
    | some v => if v = "" then "3600000" else v
    | none => "3600000"
  let parsed : Int :=
    match jsParseInt raw with
    | some n => if n = 0 then 3600000 else n
    | none => 3600000
  min (max 5000 parsed) 3600000

def CODEX_VALID_ROLES : List String :=
  ["architect", "planner", "critic", "analyst", "code-reviewer",
   "security-reviewer", "tdd-guide"]

def GEMINI_VALID_ROLES : List String := ["designer", "writer", "vision"]

def GEMINI_MODEL_FALLBACKS : List String :=
  ["gemini-3-pro-preview", "gemini-3-flash-preview",
   "gemini-2.5-pro", "gemini-2.5-flash"]

/-- In-repo default (`process.env` override not exercised by any claim). -/
def CODEX_DEFAULT_MODEL : String := "gpt-5.2"

/-- In-repo default (`process.env` override not exercised by any claim). -/
def GEMINI_DEFAULT_MODEL : String := "gemini-3-pro-preview"

def MAX_CONTEXT_FILES : Nat := 20

/-! ## Process events and the settlement machines

The synchronous executors (`executeCodex` / `executeGemini`) and background
supervisors (`executeCodexBackground` / `executeGeminiBackground`) are
event-driven: a timeout timer, `close`, `error` and stdin-`error` handlers,
plus `data` handlers accumulating stdout/stderr.  JavaScript's event loop
delivers these one at a time; we embed each operation as a step function
over an explicit event list, with the source's `settled` latch in the
state. -/

inductive ProcEvent where
  | timeout
  | close (code : Option Int)
  | procError (msg : String)
  | stdinError (msg : String)
  | dataOut (chunk : String)
  | dataErr (chunk : String)
deriving Repr, DecidableEq

/-- Events whose handler settles the operation (all but `data`). -/
def ProcEvent.isSettling : ProcEvent → Bool
  | .timeout | .close _ | .procError _ | .stdinError _ => true
  | .dataOut _ | .dataErr _ => false

structure ExecState where
  settled : Bool
  stdout : String
  stderr : String
deriving Repr, DecidableEq

def ExecState.init : ExecState := ⟨false, "", ""⟩

/-- `${code}` for `code : number | null` in a template literal. -/
def showExitCode : Option Int → String
  | none => "null"
  | some n => toString n

/-- Deliver events one at a time to a step function, concatenating whatever
each handler emits (resolutions or store writes). -/
def runSteps {α : Type} (step : ExecState → ProcEvent → ExecState × List α) :
    ExecState → List ProcEvent → ExecState × List α
  | st, [] => (st, [])
  | st, e :: es =>
    let r1 := step st e
    let r2 := runSteps step r1.1 es
    (r2.1, r1.2 ++ r2.2)

/-! ### Synchronous executors (codex-core.ts 67-128, gemini-core.ts 45-107) -/

/-- The `close` handler's resolution in `executeCodex` (lines 95-105):
success iff the exit code is zero or trimmed stdout is non-empty. -/
def codexCloseResolution (code : Option Int) (stdout stderr : String) :
    Except String String :=
  if code = some 0 ∨ jsTrim stdout ≠ "" then
    .ok (parseCodexOutput stdout)
  else
    .error ("Codex exited with code " ++ showExitCode code ++ ": " ++
      (if stderr = "" then "No output" else stderr))

/-- The `close` handler's resolution in `executeGemini` (lines 75-85). -/
def geminiCloseResolution (code : Option Int) (stdout stderr : String) :
    Except String String :=
  if code = some 0 ∨ jsTrim stdout ≠ "" then
    .ok (jsTrim stdout)
  else
    .error ("Gemini exited with code " ++ showExitCode code ++ ": " ++
      (if stderr = "" then "No output" else stderr))

/-- One event-handler activation of `executeCodex`: every settling handler
checks the `settled` latch, and emits at most one resolution. -/
def codexStep (timeoutMs : Int) (st : ExecState) (e : ProcEvent) :
    ExecState × List (Except String String) :=
  match e with
  | .dataOut chunk => ({ st with stdout := st.stdout ++ chunk }, [])
  | .dataErr chunk => ({ st with stderr := st.stderr ++ chunk }, [])
  | .timeout =>
    if st.settled then (st, [])
    else ({ st with settled := true },
      [.error ("Codex timed out after " ++ toString timeoutMs ++ "ms")])
  | .close code =>
    if st.settled then (st, [])
    else ({ st with settled := true },
      [codexCloseResolution code st.stdout st.stderr])
  | .procError msg =>
    if st.settled then (st, [])
    else ({ st with settled := true },
      [.error ("Failed to spawn Codex CLI: " ++ msg)])
  | .stdinError msg =>
    if st.settled then (st, [])
    else ({ st with settled := true },
      [.error ("Stdin write error: " ++ msg)])

/-- One event-handler activation of `executeGemini`. -/
def geminiStep (timeoutMs : Int) (st : ExecState) (e : ProcEvent) :
    ExecState × List (Except String String) :=
  match e with
  | .dataOut chunk => ({ st with stdout := st.stdout ++ chunk }, [])
  | .dataErr chunk => ({ st with stderr := st.stderr ++ chunk }, [])
  | .timeout =>
    if st.settled then (st, [])
    else ({ st with settled := true },
      [.error ("Gemini timed out after " ++ toString timeoutMs ++ "ms")])
  | .close code =>
    if st.settled then (st, [])
    else ({ st with settled := true },
      [geminiCloseResolution code st.stdout st.stderr])
  | .procError msg =>
    if st.settled then (st, [])
    else ({ st with settled := true },
      [.error ("Failed to spawn Gemini CLI: " ++ msg)])
  | .stdinError msg =>
    if st.settled then (st, [])
    else ({ st with settled := true },
      [.error ("Stdin write error: " ++ msg)])

/-! ### Background supervisors (codex-core.ts 133-255, gemini-core.ts 112-234) -/

inductive JobStatusKind where
  | spawned
  | running
  | completed
  | failed
  | timeout
deriving Repr, DecidableEq

def JobStatusKind.isTerminal : JobStatusKind → Bool
  | .completed | .failed | .timeout => true
  | .spawned | .running => false

/-- Observable side effects of a request, in program order: the Job Status
Store writes (`writeJobStatus` / `persistResponse`), the audit prompt write,
the CLI detection call, context-file reads, and process spawn attempts.
Wall-clock timestamp fields of the status records are not modelled. -/
inductive Eff where
  | detectCli
  | readContextFile (path : String)
  | persistPromptWrite
  | spawnAttempt (detached : Bool) (model : String)
  | statusWrite (k : JobStatusKind) (error : Option String)
  | responseWrite (model : String) (response : String) (usedFallback : Bool)
deriving Repr, DecidableEq

def Eff.statusKind? : Eff → Option JobStatusKind
  | .statusWrite k _ => some k
  | _ => none

/-- One event-handler activation of `executeCodexBackground` after the
synchronous prologue: the timeout, stdin-error, close and error handlers,
each guarded by the `settled` latch, writing to the Job Status Store. -/
def codexBgStep (timeoutMs : Int) (model : String) (st : ExecState) (e : ProcEvent) :
    ExecState × List Eff :=
  match e with
  | .dataOut chunk => ({ st with stdout := st.stdout ++ chunk }, [])
  | .dataErr chunk => ({ st with stderr := st.stderr ++ chunk }, [])
  | .timeout =>
    if st.settled then (st, [])
    else ({ st with settled := true },
      [.statusWrite .timeout
        (some ("Codex timed out after " ++ toString timeoutMs ++ "ms"))])
  | .stdinError msg =>
    if st.settled then (st, [])
    else ({ st with settled := true },
      [.statusWrite .failed (some ("Stdin write error: " ++ msg))])
  | .close code =>
    if st.settled then (st, [])
    else ({ st with settled := true },
      if code = some 0 ∨ jsTrim st.stdout ≠ "" then
        [.responseWrite model (parseCodexOutput st.stdout) false,
         .statusWrite .completed none]
      else
        [.statusWrite .failed
          (some ("Codex exited with code " ++ showExitCode code ++ ": " ++
            (if st.stderr = "" then "No output" else st.stderr)))])
  | .procError msg =>
    if st.settled then (st, [])
    else ({ st with settled := true },
      [.statusWrite .failed (some ("Failed to spawn Codex CLI: " ++ msg))])

/-- One event-handler activation of `executeGeminiBackground` after the
synchronous prologue. -/
def geminiBgStep (timeoutMs : Int) (model : String) (st : ExecState) (e : ProcEvent) :
    ExecState × List Eff :=
  match e with
  | .dataOut chunk => ({ st with stdout := st.stdout ++ chunk }, [])
  | .dataErr chunk => ({ st with stderr := st.stderr ++ chunk }, [])
  | .timeout =>
    if st.settled then (st, [])
    else ({ st with settled := true },
      [.statusWrite .timeout
        (some ("Gemini timed out after " ++ toString timeoutMs ++ "ms"))])
  | .stdinError msg =>
    if st.settled then (st, [])
    else ({ st with settled := true },
      [.statusWrite .failed (some ("Stdin write error: " ++ msg))])
  | .close code =>
    if st.settled then (st, [])
    else ({ st with settled := true },
      if code = some 0 ∨ jsTrim st.stdout ≠ "" then
        [.responseWrite model (jsTrim st.stdout) false,
         .statusWrite .completed none]
      else
        [.statusWrite .failed
          (some ("Gemini exited with code " ++ showExitCode code ++ ": " ++
            (if st.stderr = "" then "No output" else st.stderr)))])
  | .procError msg =>
    if st.settled then (st, [])
    else ({ st with settled := true },
      [.statusWrite .failed (some ("Failed to spawn Gemini CLI: " ++ msg))])

/-- Outcome of the `spawn` call inside the background supervisor's `try`. -/
inductive SpawnOutcome where
  | threw (msg : String)
  | noPid
  | ok (pid : Nat)
deriving Repr, DecidableEq

/-- Embedding of `executeCodexBackground`: a thrown spawn or a missing pid
returns an error with no store write; otherwise the supervisor writes
`spawned`, pipes stdin, writes `running` — all synchronously — returns the
pid, and then the asynchronous events drive the status machine. -/
def executeCodexBackgroundModel (timeoutMs : Int) (_fullPrompt model : String)
    (spawn : SpawnOutcome) (events : List ProcEvent) :
    Except String Nat × List Eff :=
  match spawn with
  | .threw msg =>
    (.error ("Failed to start background execution: " ++ msg),
     [.spawnAttempt true model])
  | .noPid => (.error "Failed to get process ID", [.spawnAttempt true model])
  | .ok pid =>
    (.ok pid,
     [.spawnAttempt true model,
      .statusWrite .spawned none,
      .statusWrite .running none] ++
     (runSteps (codexBgStep timeoutMs model) ExecState.init events).2)

/-- Embedding of `executeGeminiBackground` (same structure). -/
def executeGeminiBackgroundModel (timeoutMs : Int) (_fullPrompt model : String)
    (spawn : SpawnOutcome) (events : List ProcEvent) :
    Except String Nat × List Eff :=
  match spawn with
  | .threw msg =>
    (.error ("Failed to start background execution: " ++ msg),
     [.spawnAttempt true model])
  | .noPid => (.error "Failed to get process ID", [.spawnAttempt true model])
  | .ok pid =>
    (.ok pid,
     [.spawnAttempt true model,
      .statusWrite .spawned none,
      .statusWrite .running none] ++
     (runSteps (geminiBgStep timeoutMs model) ExecState.init events).2)

/-! ## Request handlers (handleAskCodex codex-core.ts 302-454,
handleAskGemini gemini-core.ts 290-466)

The handlers' external collaborators live in modules not under the provided
sources (cli-detection.ts, prompt-injection.ts, prompt-persistence.ts); the
handler model receives their results as oracle parameters and records every
call to them in the effect trace. -/

structure ToolResult where
  text : String
  isError : Bool
deriving Repr, DecidableEq

structure PromptResult where
  id : String
  slug : String
  filePath : String
deriving Repr, DecidableEq

structure CliDetection where
  available : Bool
  error : String
  installHint : String
deriving Repr, DecidableEq

/-- Modelled from the spec: `buildPromptWithSystemContext` is defined in
src/mcp/prompt-injection.ts, which is not among the provided sources.  The
spec: "Full Prompt — derived string = system-prompt-for-role ++
file-context-block ++ user-prompt, concatenated with a fixed precedence
(system > files > user)". -/
def buildPromptWithSystemContext (prompt : String) (fileContext : Option String)
    (systemPrompt : String) : String :=
  systemPrompt ++ "\n\n" ++
  (match fileContext with
   | some fc => fc ++ "\n\n"
   | none => "") ++ prompt

/-- Modelled from the spec: `getExpectedResponsePath` is defined in
src/mcp/prompt-persistence.ts, which is not among the provided sources.
The store is "keyed by (provider, slug, jobId)"; no claim constrains the
path format, only that the key determines it. -/
def getExpectedResponsePath (provider slug id : String) : String :=
  provider ++ "/" ++ slug ++ "-" ++ id ++ ".response.md"

/-- Modelled from the spec: `getStatusFilePath` is defined in
src/mcp/prompt-persistence.ts, which is not among the provided sources. -/
def getStatusFilePath (provider slug id : String) : String :=
  provider ++ "/" ++ slug ++ "-" ++ id ++ ".status.json"

/-- `${agent_role}` in a template literal, for `agent_role : string`
possibly absent at runtime. -/
def jsShowOptString : Option String → String
  | none => "undefined"
  | some s => s

/-- `!agent_role || !VALID_ROLES.includes(agent_role)`. -/
def roleInvalid (validRoles : List String) (agent_role : Option String) : Bool :=
  match agent_role with
  | none => true
  | some r => r = "" || !(validRoles.contains r)

/-- The fallback chain of `handleAskGemini` (gemini-core.ts 368-372 and
421-425): start at the requested model's position in the canonical list, or
prepend the requested model when absent. -/
def geminiModelsToTry (requestedModel : String) : List String :=
  let fallbackIndex : Int :=
    match GEMINI_MODEL_FALLBACKS.indexOf? requestedModel with
    | some i => i
    | none => -1
  if fallbackIndex ≥ 0 then GEMINI_MODEL_FALLBACKS.drop fallbackIndex.toNat
  else requestedModel :: GEMINI_MODEL_FALLBACKS

/-- The synchronous fallback loop of `handleAskGemini` (lines 427-457):
walk the chain in order, return on the first success (persisting the
response, annotated with `usedFallback`), and accumulate one
`"model: message"` entry per failed attempt.  Returns the successful
(model, response) if any, the error list, and the effect trace. -/
def geminiFallbackLoop (exec : String → Except String String)
    (requestedModel : String) (hasPromptResult : Bool) :
    List String → Option (String × String) × List String × List Eff
  | [] => (none, [], [])
  | tryModel :: rest =>
    match exec tryModel with
    | .ok response =>
      let usedFallback := tryModel ≠ requestedModel
      (some (tryModel, response), [],
        [Eff.spawnAttempt false tryModel] ++
        (if hasPromptResult then [Eff.responseWrite tryModel response usedFallback]
         else []))
    | .error msg =>
      let r := geminiFallbackLoop exec requestedModel hasPromptResult rest
      (r.1, (tryModel ++ ": " ++ msg) :: r.2.1,
        Eff.spawnAttempt false tryModel :: r.2.2)

structure GeminiArgs where
  prompt : String
  agent_role : Option String
  model : Option String
  files : Option (List String)
  background : Bool
deriving Repr, DecidableEq

/-- Oracle results for `handleAskGemini`'s external collaborators and
child-process interactions. -/
structure GeminiEnv where
  detection : CliDetection
  systemPrompt : String
  readFile : String → String
  promptResult : Option PromptResult
  execResult : String → String → Except String String
  bgSpawn : SpawnOutcome
  bgEvents : List ProcEvent
  timeoutMs : Int

/-- The parameter-visibility block of `handleAskGemini` (lines 413-418). -/
def geminiParamLines (env : GeminiEnv) (args : GeminiArgs) : String :=
  String.intercalate "\n"
    (["**Agent Role:** " ++ jsShowOptString args.agent_role] ++
     (match args.files with
      | some fs => if fs.length ≠ 0 then
          ["**Files:** " ++ String.intercalate ", " fs] else []
      | none => []) ++
     (match env.promptResult with
      | some pr => ["**Prompt File:** " ++ pr.filePath]
      | none => []) ++
     (match env.promptResult.map
        (fun pr => getExpectedResponsePath "gemini" pr.slug pr.id) with
      | some p => ["**Response File:** " ++ p]
      | none => []))

/-- Embedding of `handleAskGemini`: role validation, CLI detection, file
context, prompt assembly, audit persistence, then the background or
synchronous (fallback-chain) branch. -/
def handleAskGeminiModel (env : GeminiEnv) (args : GeminiArgs) :
    ToolResult × List Eff :=
  let model := args.model.getD GEMINI_DEFAULT_MODEL
  if roleInvalid GEMINI_VALID_ROLES args.agent_role then
    ({ text := "Invalid agent_role: \"" ++ jsShowOptString args.agent_role ++
        "\". Gemini requires one of: " ++
        String.intercalate ", " GEMINI_VALID_ROLES,
       isError := true }, [])
  else if !env.detection.available then
    ({ text := "Gemini CLI is not available: " ++ env.detection.error ++
        "\n\n" ++ env.detection.installHint,
       isError := true }, [.detectCli])
  else
    let files := args.files
    let tooMany : Bool :=
      match files with
      | some fs => fs.length > 0 && fs.length > MAX_CONTEXT_FILES
      | none => false
    if tooMany then
      ({ text := "Too many context files (max " ++ toString MAX_CONTEXT_FILES ++
          ", got " ++ toString ((files.getD []).length) ++ ")",
         isError := true }, [.detectCli])
    else
      let fileContext : Option String :=
        match files with
        | some fs => if fs.length > 0 then
            some (String.intercalate "\n\n" (fs.map env.readFile)) else none
        | none => none
      let readEffs : List Eff :=
        match files with
        | some fs => if fs.length > 0 then fs.map Eff.readContextFile else []
        | none => []
      let fullPrompt :=
        buildPromptWithSystemContext args.prompt fileContext env.systemPrompt
      let effs := [Eff.detectCli] ++ readEffs ++ [Eff.persistPromptWrite]
      let promptResult := env.promptResult
      let expectedResponsePath : Option String :=
        promptResult.map (fun pr => getExpectedResponsePath "gemini" pr.slug pr.id)
      if args.background then
        match promptResult with
        | none =>
          ({ text := "Failed to persist prompt for background execution",
             isError := true }, effs)
        | some pr =>
          let statusFilePath := getStatusFilePath "gemini" pr.slug pr.id
          let modelsToTry := geminiModelsToTry model
          let firstModel := modelsToTry.headD ""
          let bg := executeGeminiBackgroundModel env.timeoutMs fullPrompt firstModel
            env.bgSpawn env.bgEvents
          ((match bg.1 with
            | .error msg =>
              { text := "Failed to spawn background job: " ++ msg,
                isError := true }
            | .ok pid =>
              { text := String.intercalate "\n"
                  ["**Mode:** Background (non-blocking)",
                   "**Job ID:** " ++ pr.id,
                   "**Agent Role:** " ++ jsShowOptString args.agent_role,
                   "**Model (attempting):** " ++ firstModel,
                   "**Fallback chain:** " ++ String.intercalate " -> " modelsToTry,
                   "**PID:** " ++ toString pid,
                   "**Prompt File:** " ++ pr.filePath,
                   "**Response File:** " ++ expectedResponsePath.getD "",
                   "**Status File:** " ++ statusFilePath,
                   "",
                   "Job dispatched. Background mode tries first model only.",
                   "If it fails, check status file and retry with next model."],
                isError := false } : ToolResult), effs ++ bg.2)
      else
        let paramLines := geminiParamLines env args
        let modelsToTry := geminiModelsToTry model
        let loop := geminiFallbackLoop (env.execResult fullPrompt) model
          promptResult.isSome modelsToTry
        match loop.1 with
        | some mr =>
          let usedFallback := mr.1 ≠ model
          let fallbackNote :=
            if usedFallback then
              "[Fallback: used " ++ mr.1 ++ " instead of " ++ model ++ "]\n\n"
            else ""
          ({ text := paramLines ++ "\n\n---\n\n" ++ fallbackNote ++ mr.2,
             isError := false }, effs ++ loop.2.2)
        | none =>
          ({ text := paramLines ++ "\n\n---\n\nGemini CLI error: all models failed.\n" ++
              String.intercalate "\n" loop.2.1,
             isError := true }, effs ++ loop.2.2)

structure CodexArgs where
  prompt : String
  agent_role : Option String
  model : Option String
  context_files : Option (List String)
  background : Bool
deriving Repr, DecidableEq

structure CodexEnv where
  detection : CliDetection
  systemPrompt : String
  readFile : String → String
  promptResult : Option PromptResult
  execResult : String → Except String String
  bgSpawn : SpawnOutcome
  bgEvents : List ProcEvent
  timeoutMs : Int

/-- The parameter-visibility block of `handleAskCodex` (lines 417-422). -/
def codexParamLines (env : CodexEnv) (args : CodexArgs) : String :=
  String.intercalate "\n"
    (["**Agent Role:** " ++ jsShowOptString args.agent_role] ++
     (match args.context_files with
      | some fs => if fs.length ≠ 0 then
          ["**Files:** " ++ String.intercalate ", " fs] else []
      | none => []) ++
     (match env.promptResult with
      | some pr => ["**Prompt File:** " ++ pr.filePath]
      | none => []) ++
     (match env.promptResult.map
        (fun pr => getExpectedResponsePath "codex" pr.slug pr.id) with
      | some p => ["**Response File:** " ++ p]
      | none => []))

/-- Embedding of `handleAskCodex`: same pipeline as `handleAskGeminiModel`
but single-model (no fallback chain). -/
def handleAskCodexModel (env : CodexEnv) (args : CodexArgs) :
    ToolResult × List Eff :=
  let model := args.model.getD CODEX_DEFAULT_MODEL
  if roleInvalid CODEX_VALID_ROLES args.agent_role then
    ({ text := "Invalid agent_role: \"" ++ jsShowOptString args.agent_role ++
        "\". Codex requires one of: " ++
        String.intercalate ", " CODEX_VALID_ROLES,
       isError := true }, [])
  else if !env.detection.available then
    ({ text := "Codex CLI is not available: " ++ env.detection.error ++
        "\n\n" ++ env.detection.installHint,
       isError := true }, [.detectCli])
  else
    let files := args.context_files
    let tooMany : Bool :=
      match files with
      | some fs => fs.length > 0 && fs.length > MAX_CONTEXT_FILES
      | none => false
    if tooMany then
      ({ text := "Too many context files (max " ++ toString MAX_CONTEXT_FILES ++
          ", got " ++ toString ((files.getD []).length) ++ ")",
         isError := true }, [.detectCli])
    else
      let fileContext : Option String :=
        match files with
        | some fs => if fs.length > 0 then
            some (String.intercalate "\n\n" (fs.map env.readFile)) else none
        | none => none
      let readEffs : List Eff :=
        match files with
        | some fs => if fs.length > 0 then fs.map Eff.readContextFile else []
        | none => []
      let fullPrompt :=
        buildPromptWithSystemContext args.prompt fileContext env.systemPrompt
      let effs := [Eff.detectCli] ++ readEffs ++ [Eff.persistPromptWrite]
      let promptResult := env.promptResult
      let expectedResponsePath : Option String :=
        promptResult.map (fun pr => getExpectedResponsePath "codex" pr.slug pr.id)
      if args.background then
        match promptResult with
        | none =>
          ({ text := "Failed to persist prompt for background execution",
             isError := true }, effs)
        | some pr =>
          let statusFilePath := getStatusFilePath "codex" pr.slug pr.id
          let bg := executeCodexBackgroundModel env.timeoutMs fullPrompt model
            env.bgSpawn env.bgEvents
          ((match bg.1 with
            | .error msg =>
              { text := "Failed to spawn background job: " ++ msg,
                isError := true }
            | .ok pid =>
              { text := String.intercalate "\n"
                  ["**Mode:** Background (non-blocking)",
                   "**Job ID:** " ++ pr.id,
                   "**Agent Role:** " ++ jsShowOptString args.agent_role,
                   "**Model:** " ++ model,
                   "**PID:** " ++ toString pid,
                   "**Prompt File:** " ++ pr.filePath,
                   "**Response File:** " ++ expectedResponsePath.getD "",
                   "**Status File:** " ++ statusFilePath,
                   "",
                   "Job dispatched. Check response file existence or read status file for completion."],
                isError := false } : ToolResult), effs ++ bg.2)
      else
        let paramLines := codexParamLines env args
        match env.execResult fullPrompt with
        | .ok response =>
          ({ text := paramLines ++ "\n\n---\n\n" ++ response,
             isError := false },
           effs ++ [Eff.spawnAttempt false model] ++
           (match promptResult with
            | some _ => [Eff.responseWrite model response false]
            | none => []))
        | .error msg =>
          ({ text := paramLines ++ "\n\n---\n\nCodex CLI error: " ++ msg,
             isError := true },
           effs ++ [Eff.spawnAttempt false model])

/-! ## Trace projections -/

def statusKinds (tr : List Eff) : List JobStatusKind :=
  tr.filterMap Eff.statusKind?

def Eff.spawnOf : Eff → Option (Bool × String)
  | .spawnAttempt d m => some (d, m)
  | _ => none

def spawnsOf (tr : List Eff) : List (Bool × String) :=
  tr.filterMap Eff.spawnOf

def Eff.isResponseWrite : Eff → Bool
  | .responseWrite _ _ _ => true
  | _ => false

/-- Count of Job Status Store status writes in one handler emission. -/
def Eff.statusCnt : Eff → Nat
  | .statusWrite _ _ => 1
  | _ => 0

/-- "No record of any kind is written for the job after its terminal
status record": every decomposition of the trace at a terminal status
write has an empty remainder. -/
def NoWriteAfterTerminal (tr : List Eff) : Prop :=
  ∀ pre k err post, tr = pre ++ Eff.statusWrite k err :: post →
    k.isTerminal = true → post = []

/-! ## Generic facts about settlement machines

All four operations (two synchronous executors, two background
supervisors) are instances of one pattern: a settled latch; settling
events (timeout / close / error / stdin-error) that, from an unsettled
state, set the latch and emit exactly one resolution or terminal status
write; and data events that only accumulate output. -/

section Machine

variable {α : Type} (step : ExecState → ProcEvent → ExecState × List α)
variable (cnt : α → Nat)

/-- Once settled, every handler is a no-op: it emits nothing and leaves
the latch set. -/
def MachineAbsorbs : Prop :=
  ∀ st e, st.settled = true → (step st e).2 = [] ∧ (step st e).1.settled = true

/-- Non-settling (data) events emit nothing and do not settle. -/
def MachineQuiet : Prop :=
  ∀ st e, st.settled = false → e.isSettling = false →
    (step st e).2 = [] ∧ (step st e).1.settled = false

/-- A settling event from an unsettled state sets the latch and emits
exactly one counted item. -/
def MachineSettles : Prop :=
  ∀ st e, st.settled = false → e.isSettling = true →
    (step st e).1.settled = true ∧ ((step st e).2.map cnt).sum = 1

theorem runSteps_nil (st : ExecState) : runSteps step st [] = (st, []) := rfl

theorem runSteps_cons (st : ExecState) (e : ProcEvent) (es : List ProcEvent) :
    runSteps step st (e :: es) =
      ((runSteps step (step st e).1 es).1,
       (step st e).2 ++ (runSteps step (step st e).1 es).2) := rfl

theorem runSteps_absorb (habs : MachineAbsorbs step) :
    ∀ (evs : List ProcEvent) (st : ExecState), st.settled = true →
      (runSteps step st evs).2 = [] := by
  intro evs
  induction evs with
  | nil => intro st _; rfl
  | cons e es ih =>
    intro st hst
    rw [runSteps_cons]
    have h := habs st e hst
    simp [h.1, ih _ h.2]

theorem runSteps_cnt_le (habs : MachineAbsorbs step) (hq : MachineQuiet step)
    (hs : MachineSettles step cnt) :
    ∀ (evs : List ProcEvent) (st : ExecState),
      (((runSteps step st evs).2.map cnt).sum) ≤ (if st.settled then 0 else 1) := by
  intro evs
  induction evs with
  | nil => intro st; simp [runSteps_nil]
  | cons e es ih =>
    intro st
    rw [runSteps_cons]
    by_cases hst : st.settled = true
    · have h := habs st e hst
      simp [hst, h.1, runSteps_absorb step habs es _ h.2]
    · simp only [Bool.not_eq_true] at hst
      by_cases he : e.isSettling = true
      · have h := hs st e hst he
        have hrest := runSteps_absorb step habs es _ h.1
        simp [hst, hrest, h.2]
      · simp only [Bool.not_eq_true] at he
        have h := hq st e hst he
        have := ih (step st e).1
        simp [hst, h.1, h.2] at this ⊢
        exact this

theorem runSteps_cnt_eq_one (habs : MachineAbsorbs step) (hq : MachineQuiet step)
    (hs : MachineSettles step cnt) :
    ∀ (evs : List ProcEvent) (st : ExecState), st.settled = false →
      (∃ e ∈ evs, e.isSettling = true) →
      (((runSteps step st evs).2.map cnt).sum) = 1 := by
  intro evs
  induction evs with
  | nil => intro st _ h; simp at h
  | cons e es ih =>
    intro st hst hex
    rw [runSteps_cons]
    by_cases he : e.isSettling = true
    · have h := hs st e hst he
      have hrest := runSteps_absorb step habs es _ h.1
      simp [hrest, h.2]
    · simp only [Bool.not_eq_true] at he
      have h := hq st e hst he
      obtain ⟨e', he', hse'⟩ := hex
      rcases List.mem_cons.mp he' with heq | hmem
      · subst heq; rw [hse'] at he; cases he
      · have := ih (step st e).1 h.2 ⟨e', hmem, hse'⟩
        simp [h.1, this]

theorem runSteps_out_cases (habs : MachineAbsorbs step) (hq : MachineQuiet step)
    (hs : MachineSettles step cnt) :
    ∀ (evs : List ProcEvent) (st : ExecState), st.settled = false →
      (runSteps step st evs).2 = [] ∨
      ∃ st' e', e' ∈ evs ∧ st'.settled = false ∧
        (runSteps step st evs).2 = (step st' e').2 := by
  intro evs
  induction evs with
  | nil => intro st _; left; rfl
  | cons e es ih =>
    intro st hst
    rw [runSteps_cons]
    by_cases hset : (step st e).1.settled = true
    · have hrest := runSteps_absorb step habs es _ hset
      right
      exact ⟨st, e, List.mem_cons_self _ _, hst, by simp [hrest]⟩
    · simp only [Bool.not_eq_true] at hset
      have he : e.isSettling = false := by
        by_contra hc
        simp only [Bool.not_eq_false] at hc
        exact absurd (hs st e hst hc).1 (by simp [hset])
      have h := hq st e hst he
      rcases ih (step st e).1 hset with hnil | ⟨st', e', hmem, hst', hout⟩
      · left; simp [h.1, hnil]
      · right; exact ⟨st', e', List.mem_cons_of_mem _ hmem, hst', by simp [h.1, hout]⟩

theorem runSteps_forall {P : α → Prop}
    (h : ∀ st e, ∀ a ∈ (step st e).2, P a) :
    ∀ (evs : List ProcEvent) (st : ExecState),
      ∀ a ∈ (runSteps step st evs).2, P a := by
  intro evs
  induction evs with
  | nil => intro st a ha; simp [runSteps_nil] at ha
  | cons e es ih =>
    intro st a ha
    rw [runSteps_cons] at ha
    rcases List.mem_append.mp ha with h1 | h2
    · exact h st e a h1
    · exact ih _ a h2

end Machine

/-! ### The four operations are settlement machines -/

theorem codexStep_absorbs (t : Int) : MachineAbsorbs (codexStep t) := by
  intro st e hst; cases e <;> simp [codexStep, hst]

theorem codexStep_quiet (t : Int) : MachineQuiet (codexStep t) := by
  intro st e hst he; cases e <;> simp_all [codexStep, ProcEvent.isSettling, hst]

theorem codexStep_settles (t : Int) :
    MachineSettles (codexStep t) (fun _ => 1) := by
  intro st e hst he; cases e <;> simp_all [codexStep, ProcEvent.isSettling, hst]

theorem geminiStep_absorbs (t : Int) : MachineAbsorbs (geminiStep t) := by
  intro st e hst; cases e <;> simp [geminiStep, hst]

theorem geminiStep_quiet (t : Int) : MachineQuiet (geminiStep t) := by
  intro st e hst he; cases e <;> simp_all [geminiStep, ProcEvent.isSettling, hst]

theorem geminiStep_settles (t : Int) :
    MachineSettles (geminiStep t) (fun _ => 1) := by
  intro st e hst he; cases e <;> simp_all [geminiStep, ProcEvent.isSettling, hst]

theorem codexBgStep_absorbs (t : Int) (m : String) :
    MachineAbsorbs (codexBgStep t m) := by
  intro st e hst; cases e <;> simp [codexBgStep, hst]

theorem codexBgStep_quiet (t : Int) (m : String) :
    MachineQuiet (codexBgStep t m) := by
  intro st e hst he; cases e <;> simp_all [codexBgStep, ProcEvent.isSettling, hst]

theorem codexBgStep_settles (t : Int) (m : String) :
    MachineSettles (codexBgStep t m) Eff.statusCnt := by
  intro st e hst he
  cases e <;> simp_all [codexBgStep, ProcEvent.isSettling, hst, Eff.statusCnt]
  split <;> simp [Eff.statusCnt]

theorem geminiBgStep_absorbs (t : Int) (m : String) :
    MachineAbsorbs (geminiBgStep t m) := by
  intro st e hst; cases e <;> simp [geminiBgStep, hst]

theorem geminiBgStep_quiet (t : Int) (m : String) :
    MachineQuiet (geminiBgStep t m) := by
  intro st e hst he; cases e <;> simp_all [geminiBgStep, ProcEvent.isSettling, hst]

theorem geminiBgStep_settles (t : Int) (m : String) :
    MachineSettles (geminiBgStep t m) Eff.statusCnt := by
  intro st e hst he
  cases e <;> simp_all [geminiBgStep, ProcEvent.isSettling, hst, Eff.statusCnt]
  split <;> simp [Eff.statusCnt]

/-- What one background handler activation can write: nothing, a single
terminal status, or a response record followed by the `completed` status. -/
def BgChunk (out : List Eff) : Prop :=
  out = [] ∨
  (∃ k err, k.isTerminal = true ∧ out = [Eff.statusWrite k err]) ∨
  (∃ m r k err, k.isTerminal = true ∧
    out = [Eff.responseWrite m r false, Eff.statusWrite k err])

theorem codexBgStep_chunk (t : Int) (m : String) (st : ExecState)
    (e : ProcEvent) : BgChunk (codexBgStep t m st e).2 := by
  cases e with
  | dataOut c => left; rfl
  | dataErr c => left; rfl
  | timeout =>
    by_cases hst : st.settled = true
    · left; simp [codexBgStep, hst]
    · right; left
      exact ⟨.timeout, some ("Codex timed out after " ++ toString t ++ "ms"),
        rfl, by simp [codexBgStep, hst]⟩
  | stdinError msg =>
    by_cases hst : st.settled = true
    · left; simp [codexBgStep, hst]
    · right; left
      exact ⟨.failed, some ("Stdin write error: " ++ msg),
        rfl, by simp [codexBgStep, hst]⟩
  | procError msg =>
    by_cases hst : st.settled = true
    · left; simp [codexBgStep, hst]
    · right; left
      exact ⟨.failed, some ("Failed to spawn Codex CLI: " ++ msg),
        rfl, by simp [codexBgStep, hst]⟩
  | close code =>
    by_cases hst : st.settled = true
    · left; simp [codexBgStep, hst]
    · by_cases hc : code = some 0 ∨ jsTrim st.stdout ≠ ""
      · right; right
        exact ⟨m, parseCodexOutput st.stdout, .completed, none,
          rfl, by simp [codexBgStep, hst, hc]⟩
      · right; left
        exact ⟨.failed,
          some ("Codex exited with code " ++ showExitCode code ++ ": " ++
            (if st.stderr = "" then "No output" else st.stderr)),
          rfl, by simp [codexBgStep, hst, hc]⟩

theorem geminiBgStep_chunk (t : Int) (m : String) (st : ExecState)
    (e : ProcEvent) : BgChunk (geminiBgStep t m st e).2 := by
  cases e with
  | dataOut c => left; rfl
  | dataErr c => left; rfl
  | timeout =>
    by_cases hst : st.settled = true
    · left; simp [geminiBgStep, hst]
    · right; left
      exact ⟨.timeout, some ("Gemini timed out after " ++ toString t ++ "ms"),
        rfl, by simp [geminiBgStep, hst]⟩
  | stdinError msg =>
    by_cases hst : st.settled = true
    · left; simp [geminiBgStep, hst]
    · right; left
      exact ⟨.failed, some ("Stdin write error: " ++ msg),
        rfl, by simp [geminiBgStep, hst]⟩
  | procError msg =>
    by_cases hst : st.settled = true
    · left; simp [geminiBgStep, hst]
    · right; left
      exact ⟨.failed, some ("Failed to spawn Gemini CLI: " ++ msg),
        rfl, by simp [geminiBgStep, hst]⟩
  | close code =>
    by_cases hst : st.settled = true
    · left; simp [geminiBgStep, hst]
    · by_cases hc : code = some 0 ∨ jsTrim st.stdout ≠ ""
      · right; right
        exact ⟨m, jsTrim st.stdout, .completed, none,
          rfl, by simp [geminiBgStep, hst, hc]⟩
      · right; left
        exact ⟨.failed,
          some ("Gemini exited with code " ++ showExitCode code ++ ": " ++
            (if st.stderr = "" then "No output" else st.stderr)),
          rfl, by simp [geminiBgStep, hst, hc]⟩

/-! ### Trace shape facts -/

theorem nwat_nil : NoWriteAfterTerminal [] := by
  intro pre k err post h _
  exact absurd h (by simp)

theorem nwat_cons {x : Eff} {rest : List Eff}
    (h1 : ∀ k err, x = .statusWrite k err → k.isTerminal = true → rest = [])
    (h2 : NoWriteAfterTerminal rest) : NoWriteAfterTerminal (x :: rest) := by
  intro pre k err post heq hterm
  cases pre with
  | nil =>
    simp only [List.nil_append, List.cons.injEq] at heq
    exact heq.2 ▸ h1 k err heq.1 hterm
  | cons y pre' =>
    simp only [List.cons_append, List.cons.injEq] at heq
    exact h2 pre' k err post heq.2 hterm

theorem nwat_single_terminal (k : JobStatusKind) (err : Option String) :
    NoWriteAfterTerminal [Eff.statusWrite k err] :=
  nwat_cons (fun _ _ _ _ => rfl) nwat_nil

theorem nwat_nonterminal_cons (x : Eff)
    (hx : ∀ k err, x = .statusWrite k err → k.isTerminal = false)
    {rest : List Eff} (h : NoWriteAfterTerminal rest) :
    NoWriteAfterTerminal (x :: rest) :=
  nwat_cons (fun k err he ht => absurd ht (by simp [hx k err he])) h

theorem chunk_statusKinds {out : List Eff} (h : BgChunk out) :
    statusKinds out = [] ∨
      ∃ k, k.isTerminal = true ∧ statusKinds out = [k] := by
  rcases h with h | ⟨k, err, hk, h⟩ | ⟨m, r, k, err, hk, h⟩ <;> subst h
  · left; rfl
  · right; exact ⟨k, hk, by simp [statusKinds, Eff.statusKind?]⟩
  · right; exact ⟨k, hk, by simp [statusKinds, Eff.statusKind?]⟩

theorem chunk_spawnsOf {out : List Eff} (h : BgChunk out) : spawnsOf out = [] := by
  rcases h with h | ⟨k, err, _, h⟩ | ⟨m, r, k, err, _, h⟩ <;> subst h <;>
    simp [spawnsOf, Eff.spawnOf]

theorem chunk_nwat {out : List Eff} (h : BgChunk out) :
    NoWriteAfterTerminal out := by
  rcases h with h | ⟨k, err, _, h⟩ | ⟨m, r, k, err, _, h⟩ <;> subst h
  · exact nwat_nil
  · exact nwat_single_terminal k err
  · exact nwat_nonterminal_cons _ (by intro k' err' he; cases he)
      (nwat_single_terminal k err)

theorem bg_out_chunk {step : ExecState → ProcEvent → ExecState × List Eff}
    (habs : MachineAbsorbs step) (hq : MachineQuiet step)
    (hs : MachineSettles step Eff.statusCnt)
    (hchunk : ∀ st e, BgChunk (step st e).2) (evs : List ProcEvent) :
    BgChunk (runSteps step ExecState.init evs).2 := by
  rcases runSteps_out_cases step Eff.statusCnt habs hq hs evs ExecState.init rfl with
    h | ⟨st', e', _, _, hout⟩
  · left; exact h
  · rw [hout]; exact hchunk st' e'

theorem length_eq_one_cnt {β : Type} (l : List β) :
    l.length = (l.map (fun _ => (1 : Nat))).sum := by
  induction l with
  | nil => rfl
  | cons x rest ih =>
    simp only [List.length_cons, List.map_cons, List.sum_cons, ih]
    omega

theorem statusKinds_length (tr : List Eff) :
    (statusKinds tr).length = (tr.map Eff.statusCnt).sum := by
  induction tr with
  | nil => rfl
  | cons x rest ih =>
    have ih2 := ih
    simp only [statusKinds] at ih2
    cases x <;>
      first
        | (simp [statusKinds, Eff.statusKind?, Eff.statusCnt,
            List.filterMap_cons, ih2]; omega)
        | simp [statusKinds, Eff.statusKind?, Eff.statusCnt,
            List.filterMap_cons, ih2]

/-- Claim C1: for both synchronous executors and both background
supervisors, at most one of the settlement events {timeout, success,
failure} takes effect.  Once settled, every later event for the same
operation emits no resolution and no status write; from an unsettled
state, the whole event sequence produces at most one resolution
(synchronous case) and at most one status write (background case). -/
theorem settlement_at_most_once (t : Int) (m : String) (st : ExecState)
    (evs : List ProcEvent) :
    (st.settled = true →
      (runSteps (codexStep t) st evs).2 = [] ∧
      (runSteps (geminiStep t) st evs).2 = [] ∧
      (runSteps (codexBgStep t m) st evs).2 = [] ∧
      (runSteps (geminiBgStep t m) st evs).2 = []) ∧
    (runSteps (codexStep t) st evs).2.length ≤ 1 ∧
    (runSteps (geminiStep t) st evs).2.length ≤ 1 ∧
    (statusKinds (runSteps (codexBgStep t m) st evs).2).length ≤ 1 ∧
    (statusKinds (runSteps (geminiBgStep t m) st evs).2).length ≤ 1 := by
  refine ⟨fun hst => ⟨?_, ?_, ?_, ?_⟩, ?_, ?_, ?_, ?_⟩
  · exact runSteps_absorb _ (codexStep_absorbs t) evs st hst
  · exact runSteps_absorb _ (geminiStep_absorbs t) evs st hst
  · exact runSteps_absorb _ (codexBgStep_absorbs t m) evs st hst
  · exact runSteps_absorb _ (geminiBgStep_absorbs t m) evs st hst
  · rw [length_eq_one_cnt]
    calc ((runSteps (codexStep t) st evs).2.map (fun _ => (1:Nat))).sum
        ≤ (if st.settled then 0 else 1) :=
          runSteps_cnt_le _ _ (codexStep_absorbs t) (codexStep_quiet t)
            (codexStep_settles t) evs st
      _ ≤ 1 := by split <;> omega
  · rw [length_eq_one_cnt]
    calc ((runSteps (geminiStep t) st evs).2.map (fun _ => (1:Nat))).sum
        ≤ (if st.settled then 0 else 1) :=
          runSteps_cnt_le _ _ (geminiStep_absorbs t) (geminiStep_quiet t)
            (geminiStep_settles t) evs st
      _ ≤ 1 := by split <;> omega
  · rw [statusKinds_length]
    calc ((runSteps (codexBgStep t m) st evs).2.map Eff.statusCnt).sum
        ≤ (if st.settled then 0 else 1) :=
          runSteps_cnt_le _ _ (codexBgStep_absorbs t m) (codexBgStep_quiet t m)
            (codexBgStep_settles t m) evs st
      _ ≤ 1 := by split <;> omega
  · rw [statusKinds_length]
    calc ((runSteps (geminiBgStep t m) st evs).2.map Eff.statusCnt).sum
        ≤ (if st.settled then 0 else 1) :=
          runSteps_cnt_le _ _ (geminiBgStep_absorbs t m) (geminiBgStep_quiet t m)
            (geminiBgStep_settles t m) evs st
      _ ≤ 1 := by split <;> omega

/-- Witness for `settlement_at_most_once`: an already-settled operation
absorbs a late timeout and a late close without emitting anything. -/
theorem settlement_at_most_once_witness :
    (runSteps (codexStep 3600000) ⟨true, "", ""⟩ [.timeout, .close (some 0)]).2 = [] ∧
    (runSteps (geminiStep 3600000) ⟨true, "", ""⟩ [.timeout, .close (some 0)]).2 = [] ∧
    (runSteps (codexBgStep 3600000 "gpt-5.2") ⟨true, "", ""⟩ [.timeout, .close (some 0)]).2 = [] ∧
    (runSteps (geminiBgStep 3600000 "gemini-2.5-pro") ⟨true, "", ""⟩ [.timeout, .close (some 0)]).2 = [] := by
  refine ⟨?_, ?_, ?_, ?_⟩
  · exact (settlement_at_most_once 3600000 "gpt-5.2" ⟨true, "", ""⟩
      [.timeout, .close (some 0)]).1 rfl |>.1
  · exact (settlement_at_most_once 3600000 "gpt-5.2" ⟨true, "", ""⟩
      [.timeout, .close (some 0)]).1 rfl |>.2.1
  · exact (settlement_at_most_once 3600000 "gpt-5.2" ⟨true, "", ""⟩
      [.timeout, .close (some 0)]).1 rfl |>.2.2.1
  · exact (settlement_at_most_once 3600000 "gemini-2.5-pro" ⟨true, "", ""⟩
      [.timeout, .close (some 0)]).1 rfl |>.2.2.2

/-- Shared status-trace properties of a background supervisor run whose
spawn yielded a pid: the prologue writes `spawned` then `running`
synchronously, and the event-driven phase appends at most one terminal
status, with nothing after it. -/
theorem bg_trace_props {step : ExecState → ProcEvent → ExecState × List Eff}
    (habs : MachineAbsorbs step) (hq : MachineQuiet step)
    (hs : MachineSettles step Eff.statusCnt)
    (hchunk : ∀ st e, BgChunk (step st e).2)
    (model : String) (events : List ProcEvent) :
    (∃ term, term.isTerminal = true ∧
      statusKinds ([Eff.spawnAttempt true model, Eff.statusWrite .spawned none,
        Eff.statusWrite .running none] ++ (runSteps step ExecState.init events).2)
        <+: [.spawned, .running, term]) ∧
    (∃ rest, statusKinds ([Eff.spawnAttempt true model, Eff.statusWrite .spawned none,
        Eff.statusWrite .running none] ++ (runSteps step ExecState.init events).2)
        = .spawned :: .running :: rest) ∧
    (statusKinds ([Eff.spawnAttempt true model, Eff.statusWrite .spawned none,
        Eff.statusWrite .running none] ++ (runSteps step ExecState.init events).2)).countP
        (fun k => k.isTerminal) ≤ 1 ∧
    ((∃ e ∈ events, e.isSettling = true) →
      (statusKinds ([Eff.spawnAttempt true model, Eff.statusWrite .spawned none,
        Eff.statusWrite .running none] ++ (runSteps step ExecState.init events).2)).countP
        (fun k => k.isTerminal) = 1) ∧
    NoWriteAfterTerminal ([Eff.spawnAttempt true model, Eff.statusWrite .spawned none,
        Eff.statusWrite .running none] ++ (runSteps step ExecState.init events).2) := by
  have hchunkOut : BgChunk (runSteps step ExecState.init events).2 :=
    bg_out_chunk habs hq hs hchunk events
  have hsk : statusKinds ([Eff.spawnAttempt true model, Eff.statusWrite .spawned none,
      Eff.statusWrite .running none] ++ (runSteps step ExecState.init events).2)
      = .spawned :: .running :: statusKinds (runSteps step ExecState.init events).2 := by
    simp [statusKinds, Eff.statusKind?]
  refine ⟨?_, ⟨_, hsk⟩, ?_, ?_, ?_⟩
  · rcases chunk_statusKinds hchunkOut with hnil | ⟨k, hk, hone⟩
    · exact ⟨.completed, rfl, by rw [hsk, hnil]; exact ⟨[.completed], rfl⟩⟩
    · exact ⟨k, hk, by rw [hsk, hone]⟩
  · rw [hsk]
    rcases chunk_statusKinds hchunkOut with hnil | ⟨k, hk, hone⟩
    · simp [hnil, List.countP_cons, JobStatusKind.isTerminal]
    · cases k <;> simp_all [List.countP_cons, JobStatusKind.isTerminal]
  · intro hex
    have hsum := runSteps_cnt_eq_one step Eff.statusCnt habs hq hs events
      ExecState.init rfl hex
    have hlen : (statusKinds (runSteps step ExecState.init events).2).length = 1 := by
      rw [statusKinds_length]; exact hsum
    rcases chunk_statusKinds hchunkOut with hnil | ⟨k, hk, hone⟩
    · rw [hnil] at hlen; cases hlen
    · rw [hsk, hone]
      cases k <;> simp_all [List.countP_cons, JobStatusKind.isTerminal]
  · refine nwat_nonterminal_cons _ ?_ (nwat_nonterminal_cons _ ?_
      (nwat_nonterminal_cons _ ?_ (chunk_nwat hchunkOut)))
    · intro k err h; cases h
    · intro k err h; cases h; rfl
    · intro k err h; cases h; rfl

/-- Claim C2: for every background job, the status-record sequence written
to the Job Status Store is a prefix of `[spawned, running, terminal]`:
`spawned` is written first (synchronously, before any asynchronous event),
`running` only after `spawned`, at most one terminal status is written —
exactly one once any settling event is delivered — and no record of any
kind follows the terminal record.  Stated for both `executeCodexBackground`
and `executeGeminiBackground`. -/
theorem job_status_lifecycle (t : Int) (p m : String) (spawn : SpawnOutcome)
    (events : List ProcEvent) :
    ((∃ term, term.isTerminal = true ∧
        statusKinds (executeCodexBackgroundModel t p m spawn events).2
          <+: [.spawned, .running, term]) ∧
      (∀ pid, spawn = .ok pid → ∃ rest,
        statusKinds (executeCodexBackgroundModel t p m spawn events).2
          = .spawned :: .running :: rest) ∧
      (statusKinds (executeCodexBackgroundModel t p m spawn events).2).countP
          (fun k => k.isTerminal) ≤ 1 ∧
      ((∃ pid, spawn = .ok pid) → (∃ e ∈ events, e.isSettling = true) →
        (statusKinds (executeCodexBackgroundModel t p m spawn events).2).countP
          (fun k => k.isTerminal) = 1) ∧
      NoWriteAfterTerminal (executeCodexBackgroundModel t p m spawn events).2) ∧
    ((∃ term, term.isTerminal = true ∧
        statusKinds (executeGeminiBackgroundModel t p m spawn events).2
          <+: [.spawned, .running, term]) ∧
      (∀ pid, spawn = .ok pid → ∃ rest,
        statusKinds (executeGeminiBackgroundModel t p m spawn events).2
          = .spawned :: .running :: rest) ∧
      (statusKinds (executeGeminiBackgroundModel t p m spawn events).2).countP
          (fun k => k.isTerminal) ≤ 1 ∧
      ((∃ pid, spawn = .ok pid) → (∃ e ∈ events, e.isSettling = true) →
        (statusKinds (executeGeminiBackgroundModel t p m spawn events).2).countP
          (fun k => k.isTerminal) = 1) ∧
      NoWriteAfterTerminal (executeGeminiBackgroundModel t p m spawn events).2) := by
  cases spawn with
  | threw msg =>
    refine ⟨⟨⟨.completed, rfl, List.nil_prefix⟩, ?_, ?_, ?_, ?_⟩,
            ⟨⟨.completed, rfl, List.nil_prefix⟩, ?_, ?_, ?_, ?_⟩⟩
    · intro pid h; cases h
    · simp [statusKinds, executeCodexBackgroundModel, Eff.statusKind?]
    · intro hpid _; obtain ⟨pid, h⟩ := hpid; cases h
    · exact nwat_nonterminal_cons _ (by intro k err h; cases h) nwat_nil
    · intro pid h; cases h
    · simp [statusKinds, executeGeminiBackgroundModel, Eff.statusKind?]
    · intro hpid _; obtain ⟨pid, h⟩ := hpid; cases h
    · exact nwat_nonterminal_cons _ (by intro k err h; cases h) nwat_nil
  | noPid =>
    refine ⟨⟨⟨.completed, rfl, List.nil_prefix⟩, ?_, ?_, ?_, ?_⟩,
            ⟨⟨.completed, rfl, List.nil_prefix⟩, ?_, ?_, ?_, ?_⟩⟩
    · intro pid h; cases h
    · simp [statusKinds, executeCodexBackgroundModel, Eff.statusKind?]
    · intro hpid _; obtain ⟨pid, h⟩ := hpid; cases h
    · exact nwat_nonterminal_cons _ (by intro k err h; cases h) nwat_nil
    · intro pid h; cases h
    · simp [statusKinds, executeGeminiBackgroundModel, Eff.statusKind?]
    · intro hpid _; obtain ⟨pid, h⟩ := hpid; cases h
    · exact nwat_nonterminal_cons _ (by intro k err h; cases h) nwat_nil
  | ok pid =>
    have hc := bg_trace_props (codexBgStep_absorbs t m) (codexBgStep_quiet t m)
      (codexBgStep_settles t m) (codexBgStep_chunk t m) m events
    have hg := bg_trace_props (geminiBgStep_absorbs t m) (geminiBgStep_quiet t m)
      (geminiBgStep_settles t m) (geminiBgStep_chunk t m) m events
    exact ⟨⟨hc.1, fun _ _ => hc.2.1, hc.2.2.1, fun _ => hc.2.2.2.1, hc.2.2.2.2⟩,
           ⟨hg.1, fun _ _ => hg.2.1, hg.2.2.1, fun _ => hg.2.2.2.1, hg.2.2.2.2⟩⟩

/-- Witness for `job_status_lifecycle`: a job that spawns with pid 7 and
then closes successfully writes exactly one terminal status. -/
theorem job_status_lifecycle_witness :
    (statusKinds (executeCodexBackgroundModel 3600000 "p" "gpt-5.2"
        (.ok 7) [.close (some 0)]).2).countP (fun k => k.isTerminal) = 1 ∧
    (statusKinds (executeGeminiBackgroundModel 3600000 "p" "gpt-5.2"
        (.ok 7) [.close (some 0)]).2).countP (fun k => k.isTerminal) = 1 :=
  ⟨(job_status_lifecycle 3600000 "p" "gpt-5.2" (.ok 7)
      [.close (some 0)]).1.2.2.2.1 ⟨7, rfl⟩ ⟨.close (some 0), by decide, rfl⟩,
   (job_status_lifecycle 3600000 "p" "gpt-5.2" (.ok 7)
      [.close (some 0)]).2.2.2.2.1 ⟨7, rfl⟩ ⟨.close (some 0), by decide, rfl⟩⟩

/-! ### Close-event classification (claims C3, C10) -/

theorem jsTrim_eq_empty {s : String}
    (h : ∀ c ∈ s.data, jsIsWhitespace c = true) : jsTrim s = "" := by
  unfold jsTrim
  have : s.data.dropWhile jsIsWhitespace = [] := by
    rw [List.dropWhile_eq_nil_iff]
    intro x hx; exact h x hx
  simp [this]

/-- Claim C3, counterexample to the claim as stated: with exit code 1 and
the non-empty (but all-whitespace) stdout `" "`, the claim's "success iff
exit code zero or stdout non-empty" predicts success, but the close handler
classifies the execution as a failure. -/
theorem close_classification_counterexample :
    (" " : String) ≠ "" ∧
    codexCloseResolution (some 1) " " "" =
      .error "Codex exited with code 1: No output" ∧
    geminiCloseResolution (some 1) " " "" =
      .error "Gemini exited with code 1: No output" := by
  exact ⟨by decide, rfl, rfl⟩

/-- Claim C3 (amended: "stdout non-empty" reads "stdout non-blank, i.e.
non-empty after trimming", which is what both close handlers test): a close
event on an unsettled operation resolves as success with the decoded output
iff the exit code is zero or trimmed stdout is non-empty; otherwise it
rejects with a message carrying the exit code and stderr, substituting
"No output" for an empty stderr.  In particular, exit code 1 with stdout
`{"type":"output_text","text":"ok"}` resolves successfully to `"ok"`. -/
theorem close_classification (t : Int) (st : ExecState) (code : Option Int)
    (h : st.settled = false) :
    ((codexStep t st (.close code)).2 = [.ok (parseCodexOutput st.stdout)] ↔
      (code = some 0 ∨ jsTrim st.stdout ≠ "")) ∧
    (¬(code = some 0 ∨ jsTrim st.stdout ≠ "") →
      (codexStep t st (.close code)).2 =
        [.error ("Codex exited with code " ++ showExitCode code ++ ": " ++
          (if st.stderr = "" then "No output" else st.stderr))]) ∧
    ((geminiStep t st (.close code)).2 = [.ok (jsTrim st.stdout)] ↔
      (code = some 0 ∨ jsTrim st.stdout ≠ "")) ∧
    (¬(code = some 0 ∨ jsTrim st.stdout ≠ "") →
      (geminiStep t st (.close code)).2 =
        [.error ("Gemini exited with code " ++ showExitCode code ++ ": " ++
          (if st.stderr = "" then "No output" else st.stderr))]) ∧
    (codexStep t ⟨false, "\x7b\"type\":\"output_text\",\"text\":\"ok\"\x7d", ""⟩
      (.close (some 1))).2 = [.ok "ok"] := by
  refine ⟨?_, ?_, ?_, ?_, by rfl⟩
  · by_cases hc : code = some 0 ∨ jsTrim st.stdout ≠ "" <;>
      simp [codexStep, h, codexCloseResolution, hc]
  · intro hc; simp [codexStep, h, codexCloseResolution, hc]
  · by_cases hc : code = some 0 ∨ jsTrim st.stdout ≠ "" <;>
      simp [geminiStep, h, geminiCloseResolution, hc]
  · intro hc; simp [geminiStep, h, geminiCloseResolution, hc]

/-- Witness for `close_classification` at exit code 0. -/
theorem close_classification_witness :
    (codexStep 3600000 ⟨false, "hi", ""⟩ (.close (some 0))).2 =
      [.ok (parseCodexOutput "hi")] :=
  ((close_classification 3600000 ⟨false, "hi", ""⟩ (some 0) rfl).1).mpr
    (Or.inl rfl)

/-- Claim C10: "non-empty standard output" in the success classification
means non-blank after trimming — a close event with non-zero (or null)
exit code and whitespace-only stdout is classified as a failure by both
synchronous executors and both background supervisors. -/
theorem blank_stdout_fails (code : Option Int) (s e : String)
    (hcode : code ≠ some 0)
    (hws : ∀ c ∈ s.data, jsIsWhitespace c = true) :
    (∃ msg, codexCloseResolution code s e = .error msg) ∧
    (∃ msg, geminiCloseResolution code s e = .error msg) ∧
    (∀ t m, (codexBgStep t m ⟨false, s, e⟩ (.close code)).2 =
      [.statusWrite .failed
        (some ("Codex exited with code " ++ showExitCode code ++ ": " ++
          (if e = "" then "No output" else e)))]) ∧
    (∀ t m, (geminiBgStep t m ⟨false, s, e⟩ (.close code)).2 =
      [.statusWrite .failed
        (some ("Gemini exited with code " ++ showExitCode code ++ ": " ++
          (if e = "" then "No output" else e)))]) := by
  have htrim := jsTrim_eq_empty hws
  have hcond : ¬(code = some 0 ∨ jsTrim s ≠ "") := by
    simp [htrim, hcode]
  refine ⟨⟨"Codex exited with code " ++ showExitCode code ++ ": " ++
      (if e = "" then "No output" else e), ?_⟩,
    ⟨"Gemini exited with code " ++ showExitCode code ++ ": " ++
      (if e = "" then "No output" else e), ?_⟩, ?_, ?_⟩
  · simp [codexCloseResolution, hcond, htrim, hcode]
  · simp [geminiCloseResolution, hcond, htrim, hcode]
  · intro t m; simp [codexBgStep, htrim, hcode]
  · intro t m; simp [geminiBgStep, htrim, hcode]

/-- Witness for `blank_stdout_fails`: exit code 1 with stdout `" \t"`. -/
theorem blank_stdout_fails_witness :
    ∃ msg, codexCloseResolution (some 1) " \t" "" = .error msg :=
  (blank_stdout_fails (some 1) " \t" "" (by decide) (by decide)).1

/-! ### The timeout clamp (claim C9) -/

/-- Claim C9: for every value of the timeout environment variable —
unset, empty, non-numeric, negative, zero or oversized — the effective
timeout lies in [5000 ms, 3600000 ms]; when the variable is unset or does
not parse, it is exactly 3600000 ms. -/
theorem timeout_clamped (envVal : Option String) :
    5000 ≤ effectiveTimeout envVal ∧ effectiveTimeout envVal ≤ 3600000 ∧
    (envVal = none → effectiveTimeout envVal = 3600000) ∧
    (∀ v, envVal = some v → jsParseInt v = none →
      effectiveTimeout envVal = 3600000) := by
  refine ⟨?_, ?_, ?_, ?_⟩
  · exact le_min (le_max_left _ _) (by norm_num)
  · exact min_le_right _ _
  · intro h; subst h; rfl
  · intro v h hparse; subst h
    by_cases hv : v = ""
    · subst hv; rfl
    · simp [effectiveTimeout, hv, hparse]

/-- Witness for `timeout_clamped`: the unparsable value `"soon"`. -/
theorem timeout_clamped_witness :
    effectiveTimeout (some "soon") = 3600000 :=
  (timeout_clamped (some "soon")).2.2.2 "soon" rfl rfl

/-! ### The decoder fallback (claim C6) -/

theorem lineSeg_eq (line : String) :
    (match jsonParse line with
     | some event => codexLineSegments (line.length + 1) event
     | none => []) =
    ((jsonParse line).map (codexLineSegments (line.length + 1))).getD [] := by
  cases jsonParse line <;> rfl

/-- Claim C6, counterexample to the claim as stated: on the line
`{"type":"output_text","text":[]}` the decoder collects one segment (the
truthy array `[]`, which stringifies to the empty string), so the claim
requires the output to be the joined segments `""`; the decoder instead
falls back to the raw input because the join is falsy. -/
theorem decoder_fallback_counterexample :
    collectedSegments "\x7b\"type\":\"output_text\",\"text\":[]\x7d" = [""] ∧
    parseCodexOutput "\x7b\"type\":\"output_text\",\"text\":[]\x7d" =
      "\x7b\"type\":\"output_text\",\"text\":[]\x7d" ∧
    parseCodexOutput "\x7b\"type\":\"output_text\",\"text\":[]\x7d" ≠
      String.intercalate "\n"
        (collectedSegments "\x7b\"type\":\"output_text\",\"text\":[]\x7d") := by
  refine ⟨rfl, rfl, ?_⟩
  intro h
  exact absurd h (by decide)

/-- Claim C6 (amended: the decoder returns the raw input unchanged exactly
when the collected segments joined by newline form the empty string — in
particular whenever zero segments were collected; otherwise it returns the
joined segments in original record order). -/
theorem decoder_fallback (s : String) :
    parseCodexOutput s =
      (if String.intercalate "\n" (collectedSegments s) = "" then s
       else String.intercalate "\n" (collectedSegments s)) ∧
    (collectedSegments s = [] → parseCodexOutput s = s) := by
  have hmain : parseCodexOutput s =
      (if String.intercalate "\n" (collectedSegments s) = "" then s
       else String.intercalate "\n" (collectedSegments s)) := by
    unfold parseCodexOutput collectedSegments
    simp only [lineSeg_eq]
  refine ⟨hmain, fun h => ?_⟩
  rw [hmain, h]
  rfl

/-- Witness for `decoder_fallback`: unstructured output decodes to itself. -/
theorem decoder_fallback_witness : parseCodexOutput "plain text" = "plain text" :=
  (decoder_fallback "plain text").2 rfl

/-! ### The fallback chain (claims C4, C5) -/

theorem spawnsOf_spawnAttempts (chain : List String) :
    spawnsOf (chain.map (fun x => Eff.spawnAttempt false x)) =
      chain.map (fun x => (false, x)) := by
  induction chain with
  | nil => rfl
  | cons x rest ih =>
    simp only [List.map_cons, spawnsOf, List.filterMap_cons, Eff.spawnOf] at ih ⊢
    rw [ih]

theorem geminiFallbackLoop_all_fail (exec : String → Except String String)
    (errOf : String → String) (rm : String) (hp : Bool) :
    ∀ chain, (∀ x ∈ chain, exec x = .error (errOf x)) →
      geminiFallbackLoop exec rm hp chain =
        (none, chain.map (fun x => x ++ ": " ++ errOf x),
         chain.map (fun x => Eff.spawnAttempt false x)) := by
  intro chain
  induction chain with
  | nil => intro _; rfl
  | cons x rest ih =>
    intro h
    have hx := h x (List.mem_cons_self _ _)
    simp [geminiFallbackLoop, hx,
      ih (fun y hy => h y (List.mem_cons_of_mem _ hy))]

/-- The fallback driver consumes its chain strictly in order: whatever the
per-model outcomes, the attempted spawns are a prefix of the chain. -/
theorem geminiFallbackLoop_spawns_prefix (exec : String → Except String String)
    (rm : String) (hp : Bool) :
    ∀ chain, spawnsOf (geminiFallbackLoop exec rm hp chain).2.2 <+:
      chain.map (fun x => (false, x)) := by
  intro chain
  induction chain with
  | nil => exact List.nil_prefix
  | cons x rest ih =>
    cases hex : exec x with
    | ok response =>
      by_cases hhp : hp <;>
        simp [geminiFallbackLoop, hex, hhp, spawnsOf, Eff.spawnOf]
    | error msg =>
      simp only [geminiFallbackLoop, hex, spawnsOf, List.filterMap_cons,
        Eff.spawnOf, List.map_cons]
      exact List.cons_prefix_cons.mpr ⟨rfl, ih⟩

/-- Claim C4: the synchronous fallback chain starts at the requested
model's position in the canonical list when present (and never revisits
earlier elements), is the requested model prepended to the whole canonical
list otherwise, and the driver consumes it strictly in order: when every
model fails, the attempted spawns are exactly the chain, in order. -/
theorem fallback_chain_construction :
    (∀ m i, GEMINI_MODEL_FALLBACKS.indexOf? m = some i →
      geminiModelsToTry m = GEMINI_MODEL_FALLBACKS.drop i ∧
      ∀ x ∈ GEMINI_MODEL_FALLBACKS.take i, x ∉ geminiModelsToTry m) ∧
    (∀ m, GEMINI_MODEL_FALLBACKS.indexOf? m = none →
      geminiModelsToTry m = m :: GEMINI_MODEL_FALLBACKS) ∧
    (∀ (exec : String → Except String String) (errOf : String → String)
        (rm : String) (hp : Bool) (chain : List String),
      (∀ x ∈ chain, exec x = .error (errOf x)) →
      spawnsOf (geminiFallbackLoop exec rm hp chain).2.2 =
        chain.map (fun x => (false, x))) ∧
    (∀ (exec : String → Except String String) (rm : String) (hp : Bool)
        (chain : List String),
      spawnsOf (geminiFallbackLoop exec rm hp chain).2.2 <+:
        chain.map (fun x => (false, x))) := by
  refine ⟨?_, ?_, ?_, fun exec rm hp => geminiFallbackLoop_spawns_prefix exec rm hp⟩
  · intro m i h
    by_cases h1 : m = "gemini-3-pro-preview"
    · subst h1
      have h0 : (0 : Nat) = i := Option.some.inj h
      subst h0
      exact ⟨rfl, by simp⟩
    by_cases h2 : m = "gemini-3-flash-preview"
    · subst h2
      have h0 : (1 : Nat) = i := Option.some.inj h
      subst h0
      exact ⟨rfl, by decide⟩
    by_cases h3 : m = "gemini-2.5-pro"
    · subst h3
      have h0 : (2 : Nat) = i := Option.some.inj h
      subst h0
      exact ⟨rfl, by decide⟩
    by_cases h4 : m = "gemini-2.5-flash"
    · subst h4
      have h0 : (3 : Nat) = i := Option.some.inj h
      subst h0
      exact ⟨rfl, by decide⟩
    · have hnone : GEMINI_MODEL_FALLBACKS.indexOf? m = none := by
        rw [List.indexOf?_eq_none_iff]
        intro x hx
        simp only [GEMINI_MODEL_FALLBACKS, List.mem_cons,
          List.not_mem_nil, or_false] at hx
        rcases hx with rfl | rfl | rfl | rfl <;>
          simp [beq_iff_eq] <;> intro hh <;>
          first
            | exact h1 hh.symm
            | exact h2 hh.symm
            | exact h3 hh.symm
            | exact h4 hh.symm
      rw [hnone] at h
      cases h
  · intro m h
    simp [geminiModelsToTry, h]
  · intro exec errOf rm hp chain hfail
    rw [geminiFallbackLoop_all_fail exec errOf rm hp chain hfail]
    exact spawnsOf_spawnAttempts chain

/-- Witness for `fallback_chain_construction`: the 3rd of the 4 canonical
models yields exactly elements 3 and 4, and a chain of two failing models
is attempted in order. -/
theorem fallback_chain_construction_witness :
    geminiModelsToTry "gemini-2.5-pro" = ["gemini-2.5-pro", "gemini-2.5-flash"] ∧
    geminiModelsToTry "modelA" = "modelA" :: GEMINI_MODEL_FALLBACKS ∧
    spawnsOf (geminiFallbackLoop (fun _ => .error "boom")
        "modelA" true ["modelA", "modelB"]).2.2 =
      [(false, "modelA"), (false, "modelB")] :=
  ⟨(fallback_chain_construction.1 "gemini-2.5-pro" 2 rfl).1,
   fallback_chain_construction.2.1 "modelA" rfl,
   fallback_chain_construction.2.2.1 (fun _ => .error "boom")
     (fun _ => "boom") "modelA" true ["modelA", "modelB"] (fun _ _ => rfl)⟩

/-! ### Request handler claims (C5, C7, C8) -/

theorem spawnsOf_append (a b : List Eff) :
    spawnsOf (a ++ b) = spawnsOf a ++ spawnsOf b :=
  List.filterMap_append a b Eff.spawnOf

theorem spawnsOf_readEffs (fs : List String) :
    spawnsOf (List.map Eff.readContextFile fs) = [] := by
  induction fs <;> simp_all [spawnsOf, Eff.spawnOf]

/-- The background supervisor attempts exactly one (detached) spawn with
the model it was handed, whatever the spawn outcome and event sequence. -/
theorem geminiBg_spawnsOf (t : Int) (p m : String) (spawn : SpawnOutcome)
    (events : List ProcEvent) :
    spawnsOf (executeGeminiBackgroundModel t p m spawn events).2 = [(true, m)] := by
  cases spawn with
  | threw msg => rfl
  | noPid => rfl
  | ok pid =>
    have hout := chunk_spawnsOf (bg_out_chunk (geminiBgStep_absorbs t m)
      (geminiBgStep_quiet t m) (geminiBgStep_settles t m)
      (geminiBgStep_chunk t m) events)
    simp only [spawnsOf] at hout
    simp [executeGeminiBackgroundModel, spawnsOf, List.filterMap_append,
      List.filterMap_cons, Eff.spawnOf, hout]

theorem codexBg_spawnsOf (t : Int) (p m : String) (spawn : SpawnOutcome)
    (events : List ProcEvent) :
    spawnsOf (executeCodexBackgroundModel t p m spawn events).2 = [(true, m)] := by
  cases spawn with
  | threw msg => rfl
  | noPid => rfl
  | ok pid =>
    have hout := chunk_spawnsOf (bg_out_chunk (codexBgStep_absorbs t m)
      (codexBgStep_quiet t m) (codexBgStep_settles t m)
      (codexBgStep_chunk t m) events)
    simp only [spawnsOf] at hout
    simp [executeCodexBackgroundModel, spawnsOf, List.filterMap_append,
      List.filterMap_cons, Eff.spawnOf, hout]

/-- Claim C7: a missing or invalid agent role short-circuits both request
handlers with an error-flagged result and an empty effect trace — no CLI
detection, no context-file read, no prompt persistence and no process
spawn. -/
theorem invalid_role_short_circuits (genv : GeminiEnv) (gargs : GeminiArgs)
    (cenv : CodexEnv) (cargs : CodexArgs)
    (hg : roleInvalid GEMINI_VALID_ROLES gargs.agent_role = true)
    (hc : roleInvalid CODEX_VALID_ROLES cargs.agent_role = true) :
    (handleAskGeminiModel genv gargs).1.isError = true ∧
    (handleAskGeminiModel genv gargs).2 = [] ∧
    (handleAskCodexModel cenv cargs).1.isError = true ∧
    (handleAskCodexModel cenv cargs).2 = [] := by
  refine ⟨?_, ?_, ?_, ?_⟩ <;>
    simp [handleAskGeminiModel, handleAskCodexModel, hg, hc]

/-- Witness for `invalid_role_short_circuits`: a missing role on one
provider and a wrong role on the other. -/
theorem invalid_role_short_circuits_witness :
    (handleAskGeminiModel
      ⟨⟨true, "", ""⟩, "S", fun p => p, none, fun _ _ => .error "e", .noPid, [], 3600000⟩
      ⟨"hi", none, none, none, false⟩).2 = [] ∧
    (handleAskCodexModel
      ⟨⟨true, "", ""⟩, "S", fun p => p, none, fun _ => .error "e", .noPid, [], 3600000⟩
      ⟨"hi", some "designer", none, none, false⟩).2 = [] := by
  have h := invalid_role_short_circuits
    ⟨⟨true, "", ""⟩, "S", fun p => p, none, fun _ _ => .error "e", .noPid, [], 3600000⟩
    ⟨"hi", none, none, none, false⟩
    ⟨⟨true, "", ""⟩, "S", fun p => p, none, fun _ => .error "e", .noPid, [], 3600000⟩
    ⟨"hi", some "designer", none, none, false⟩ rfl (by decide)
  exact ⟨h.2.1, h.2.2.2⟩

/-- Claim C5: when every model of the fallback chain fails, the
synchronous gemini handler returns a single error-flagged result whose
text ends with one `"model: message"` line per attempted model, in attempt
order, and persists no response record. -/
theorem all_models_fail_aggregate (env : GeminiEnv) (args : GeminiArgs)
    (errOf : String → String)
    (hrole : roleInvalid GEMINI_VALID_ROLES args.agent_role = false)
    (hdet : env.detection.available = true)
    (hfiles : (args.files.getD []).length ≤ MAX_CONTEXT_FILES)
    (hbg : args.background = false)
    (hfail : ∀ p x, x ∈ geminiModelsToTry (args.model.getD GEMINI_DEFAULT_MODEL) →
      env.execResult p x = .error (errOf x)) :
    (handleAskGeminiModel env args).1.isError = true ∧
    (handleAskGeminiModel env args).1.text =
      geminiParamLines env args ++
      "\n\n---\n\nGemini CLI error: all models failed.\n" ++
      String.intercalate "\n"
        ((geminiModelsToTry (args.model.getD GEMINI_DEFAULT_MODEL)).map
          (fun x => x ++ ": " ++ errOf x)) ∧
    (∀ e ∈ (handleAskGeminiModel env args).2, e.isResponseWrite = false) := by
  have htoo : (match args.files with
      | some fs => fs.length > 0 && fs.length > MAX_CONTEXT_FILES
      | none => false) = false := by
    cases hf : args.files with
    | none => rfl
    | some fs =>
      simp [hf] at hfiles
      simp
      omega
  simp only [handleAskGeminiModel, hrole, hdet, htoo, hbg, Bool.not_true,
    if_false, Bool.false_eq_true, ite_false, ite_true]
  rw [geminiFallbackLoop_all_fail _ errOf _ _ _ (fun x hx => hfail _ x hx)]
  refine ⟨rfl, rfl, ?_⟩
  intro e he
  simp only [List.mem_append, List.mem_map] at he
  rcases he with ((h1 | h2) | h3) | h4
  · simp at h1; subst h1; rfl
  · cases hf : args.files with
    | none => rw [hf] at h2; simp at h2
    | some fs =>
      rw [hf] at h2
      by_cases hlen : fs.length > 0
      · simp only [hlen, if_true] at h2
        obtain ⟨p2, hp2, rfl⟩ := List.mem_map.mp h2
        rfl
      · simp [hlen] at h2
  · simp at h3; subst h3; rfl
  · obtain ⟨x, hx, rfl⟩ := h4
    rfl

/-- Witness for `all_models_fail_aggregate`: requested model `"zzz"`, not
in the canonical list, and a uniformly failing executor. -/
theorem all_models_fail_aggregate_witness :
    (handleAskGeminiModel
      ⟨⟨true, "", ""⟩, "S", fun p => p, some ⟨"id1", "slug1", "/tmp/p.md"⟩,
       fun _ _ => .error "boom", .noPid, [], 3600000⟩
      ⟨"hi", some "designer", some "zzz", none, false⟩).1.isError = true :=
  (all_models_fail_aggregate
    ⟨⟨true, "", ""⟩, "S", fun p => p, some ⟨"id1", "slug1", "/tmp/p.md"⟩,
     fun _ _ => .error "boom", .noPid, [], 3600000⟩
    ⟨"hi", some "designer", some "zzz", none, false⟩
    (fun _ => "boom") rfl rfl (by decide) rfl (fun _ _ _ => rfl)).1

/-- Claim C8: a background-mode request attempts exactly one (detached)
child-process spawn, using only the first element of the constructed
fallback chain (gemini) or the requested model (codex); no other chain
element is attempted and — since the event list is arbitrary, including
failing ones — a failed background job triggers no further spawn. -/
theorem background_single_spawn (env : GeminiEnv) (args : GeminiArgs)
    (pr : PromptResult) (cenv : CodexEnv) (cargs : CodexArgs) (cpr : PromptResult)
    (hrole : roleInvalid GEMINI_VALID_ROLES args.agent_role = false)
    (hdet : env.detection.available = true)
    (hfiles : (args.files.getD []).length ≤ MAX_CONTEXT_FILES)
    (hbg : args.background = true)
    (hpr : env.promptResult = some pr)
    (chrole : roleInvalid CODEX_VALID_ROLES cargs.agent_role = false)
    (chdet : cenv.detection.available = true)
    (chfiles : (cargs.context_files.getD []).length ≤ MAX_CONTEXT_FILES)
    (chbg : cargs.background = true)
    (chpr : cenv.promptResult = some cpr) :
    spawnsOf (handleAskGeminiModel env args).2 =
      [(true, (geminiModelsToTry (args.model.getD GEMINI_DEFAULT_MODEL)).headD "")] ∧
    spawnsOf (handleAskCodexModel cenv cargs).2 =
      [(true, cargs.model.getD CODEX_DEFAULT_MODEL)] := by
  constructor
  · have htoo : (match args.files with
        | some fs => fs.length > 0 && fs.length > MAX_CONTEXT_FILES
        | none => false) = false := by
      cases hf : args.files with
      | none => rfl
      | some fs =>
        simp [hf] at hfiles
        simp
        omega
    have hreads : spawnsOf (match args.files with
        | some fs => if fs.length > 0 then List.map Eff.readContextFile fs else []
        | none => []) = [] := by
      cases hf : args.files with
      | none => rfl
      | some fs =>
        by_cases hl : fs.length > 0
        · simp [hl, spawnsOf_readEffs]
        · simp [hl, spawnsOf]
    simp only [handleAskGeminiModel, hrole, hdet, htoo, hbg, hpr, Bool.not_true,
      if_false, Bool.false_eq_true, ite_false, ite_true]
    rw [spawnsOf_append, spawnsOf_append, spawnsOf_append]
    rw [geminiBg_spawnsOf]
    simp only [spawnsOf, List.filterMap_cons, Eff.spawnOf, List.filterMap_nil]
      at hreads ⊢
    rw [hreads]
    rfl
  · have htoo : (match cargs.context_files with
        | some fs => fs.length > 0 && fs.length > MAX_CONTEXT_FILES
        | none => false) = false := by
      cases hf : cargs.context_files with
      | none => rfl
      | some fs =>
        simp [hf] at chfiles
        simp
        omega
    have hreads : spawnsOf (match cargs.context_files with
        | some fs => if fs.length > 0 then List.map Eff.readContextFile fs else []
        | none => []) = [] := by
      cases hf : cargs.context_files with
      | none => rfl
      | some fs =>
        by_cases hl : fs.length > 0
        · simp [hl, spawnsOf_readEffs]
        · simp [hl, spawnsOf]
    simp only [handleAskCodexModel, chrole, chdet, htoo, chbg, chpr, Bool.not_true,
      if_false, Bool.false_eq_true, ite_false, ite_true]
    rw [spawnsOf_append, spawnsOf_append, spawnsOf_append]
    rw [codexBg_spawnsOf]
    simp only [spawnsOf, List.filterMap_cons, Eff.spawnOf, List.filterMap_nil]
      at hreads ⊢
    rw [hreads]
    rfl

/-- Witness for `background_single_spawn`: background dispatch whose child
exits with code 1 (a failed job) still produces exactly one spawn. -/
theorem background_single_spawn_witness :
    spawnsOf (handleAskGeminiModel
      ⟨⟨true, "", ""⟩, "S", fun p => p, some ⟨"id1", "slug1", "/tmp/p.md"⟩,
       fun _ _ => .error "boom", .ok 42, [.close (some 1)], 3600000⟩
      ⟨"hi", some "designer", some "gemini-2.5-pro", none, true⟩).2 =
      [(true, "gemini-2.5-pro")] :=
  (background_single_spawn
    ⟨⟨true, "", ""⟩, "S", fun p => p, some ⟨"id1", "slug1", "/tmp/p.md"⟩,
     fun _ _ => .error "boom", .ok 42, [.close (some 1)], 3600000⟩
    ⟨"hi", some "designer", some "gemini-2.5-pro", none, true⟩
    ⟨"id1", "slug1", "/tmp/p.md"⟩
    ⟨⟨true, "", ""⟩, "S", fun p => p, some ⟨"id1", "slug1", "/tmp/p.md"⟩,
     fun _ => .error "boom", .ok 42, [.close (some 1)], 3600000⟩
    ⟨"hi", some "critic", some "gpt-5.2", none, true⟩
    ⟨"id1", "slug1", "/tmp/p.md"⟩
    rfl rfl (by decide) rfl rfl rfl rfl (by decide) rfl rfl).1

end OMC
